import Mathlib

/-!
A verification development for the trace-driven link-characteristic
scheduler implemented in `Topology/bent-pipe (1).py` of the
LeoNetEmulator repository, together with the sibling conversion utility
`Latency/convert_ping_text_to_csv.py`.

The embedding represents time values and latencies as rationals (the
Python program uses floats; every claim under study is about control
flow, ordering and exact arithmetic identities, all of which are
representable exactly).  Fallible operations (a `float()` call that can
raise `ValueError`, a `min()` over an empty sequence that raises) are
embedded as `Option`-valued functions, `none` standing for the raised,
uncaught exception.  The Python `dict` built by the loader is embedded
as an association list kept in key-insertion order, which is exactly
the iteration order of `dict.keys()`.
-/

namespace BentPipe

/-- One field of a CSV row, abstracted by the outcome of applying the
Python `float` conversion to it: `num q` is a field that parses to the
value `q`, and `bad` is a field on which `float` raises `ValueError`. -/
inductive Cell
  | num (q : ℚ)
  | bad
deriving DecidableEq

/-- Python `float(cell)`: `some` value on success, `none` when the call
raises. -/
def parseFloat : Cell → Option ℚ
  | Cell.num q => some q
  | Cell.bad => none

/-- The evaluation of `float(row[1])` and `float(row[2])` for one CSV
row in `load_latency_trace`: `none` when either index is out of range
(`IndexError`) or either field does not parse (`ValueError`); both
exceptions are uncaught in the source, so `none` aborts the load. -/
def parseRow (row : List Cell) : Option (ℚ × ℚ) :=
  match row[1]?, row[2]? with
  | some c1, some c2 =>
    match parseFloat c1, parseFloat c2 with
    | some t, some v => some (t, v)
    | _, _ => none
  | _, _ => none

/-- Python `d[k] = v` on a `dict` embedded as an association list: an
existing key keeps its position and gets the new value (last write
wins), a new key is appended at the end (insertion order). -/
def dictInsert (d : List (ℚ × ℚ)) (k v : ℚ) : List (ℚ × ℚ) :=
  if (d.map Prod.fst).contains k then
    d.map (fun p => if p.1 = k then (k, v) else p)
  else d ++ [(k, v)]

/-- The `for row in reader` loop of `load_latency_trace`, starting from
the dictionary `d`: each row is parsed and inserted via
`data[float(row[1])] = float(row[2])`; the first row that fails to
parse aborts the whole load (`none`). -/
def loadRows : List (List Cell) → List (ℚ × ℚ) → Option (List (ℚ × ℚ))
  | [], d => some d
  | r :: rs, d =>
    match parseRow r with
    | some (t, v) => loadRows rs (dictInsert d t v)
    | none => none

/-- `NetworkConfigThread.load_latency_trace`, the file abstracted as
its list of CSV rows.  `next(reader)` discards the first row without
looking at it and raises `StopIteration` on an empty file (`none`);
the remaining rows are folded into the dictionary. -/
def load_latency_trace : List (List Cell) → Option (List (ℚ × ℚ))
  | [] => none
  | _header :: rows => loadRows rows []

/-- The Python expression
`min(keys, key=lambda t: abs(t - e))` evaluated by a left fold over
the non-empty sequence `k :: ks`: the running best is replaced only
when a strictly smaller distance appears, so the first key attaining
the minimal distance (in iteration order) is returned, exactly the
tie-break of Python `min`. -/
def pyAbsMin (e k : ℚ) (ks : List ℚ) : ℚ :=
  ks.foldl (fun b x => if |x - e| < |b - e| then x else b) k

/-- Subscripting `self.latency[closest]`: first binding of the key in
the association list (the list built by `load_latency_trace` has
distinct keys).  A missing key yields `0`, the `defaultdict(float)`
default. -/
def dictLookup (d : List (ℚ × ℚ)) (k : ℚ) : ℚ :=
  match d with
  | [] => 0
  | p :: ps => if p.1 = k then p.2 else dictLookup ps k

/-- Python `int(q)`: truncation toward zero. -/
def pyTrunc (q : ℚ) : ℤ :=
  if 0 ≤ q then Rat.floor q else Rat.ceil q

/-- `NetworkConfigThread.get_closest_latency`, parametrised by the
trace (`self.latency` as an insertion-ordered association list) and by
`now_relative = time.time() - self.start_time`.  `min` over the empty
key sequence raises `ValueError`, embedded as `none`; otherwise the
result is `int(self.latency[closest] / 2)`. -/
def get_closest_latency (trace : List (ℚ × ℚ)) (now_relative : ℚ) : Option ℤ :=
  match trace.map Prod.fst with
  | [] => none
  | k :: ks => some (pyTrunc (dictLookup trace (pyAbsMin now_relative k ks) / 2))

/-- One observable action of an invocation of `update_periodically`:
`setTick` is `update_event.set()`; `enter delay startArg step` is
`scheduler.enter(delay, 1, update_periodically, (scheduler, startArg,
step))`, i.e. the next invocation is scheduled to run after `delay`
seconds with `startArg` as its `start_time` argument.  The `sleep`
constructor never occurs in the embedded code (the function body
contains no sleeping call; any waiting happens inside `sched` after
the invocation returns); it exists so that statements about a
sleep-before-signal ordering can be expressed and refuted. -/
inductive TrigAction
  | setTick
  | sleep (d : ℚ)
  | enter (delay startArg step : ℚ)
deriving DecidableEq

/-- Recogniser for the `sleep` action. -/
def isSleep : TrigAction → Bool
  | TrigAction.sleep _ => true
  | _ => false

/-- The body of `update_periodically(scheduler, start_time, step)` as
the ordered list of its observable actions.  `now` stands for the
value returned by `time.time()` during the invocation (the source
samples the clock twice; both samples are modelled by the single
instant `now`). -/
def update_periodically (start_time step now : ℚ) : List TrigAction :=
  let next_time := start_time + step
  let sleep_time := next_time - now
  if 0 < sleep_time then
    [TrigAction.setTick, TrigAction.enter sleep_time next_time step]
  else
    [TrigAction.enter 0 now step]

/-- One call to `NetworkConfigThread.configureStaticNetworkConditions`
with its three arguments (explicit or defaulted). -/
inductive CfgCall
  | call (delay bw loss : ℤ)
deriving DecidableEq

/-- The constant `max_updates = 10` of `configureNetworkConditions`. -/
def max_updates : ℕ := 10

/-- The module constant `latency_update_interval = 1`. -/
def latency_update_interval : ℚ := 1

/-- The `while updates < max_updates` loop of
`configureNetworkConditions`.  `delays` abstracts the environment: its
value at `u` is the integer returned by `get_closest_latency` when the
loop body runs for the `u`-th time.  `ticks` is the number of times
`update_event.wait()` can still return; when it reaches `0` with the
loop not yet finished, the loop blocks forever and no further
configurator call is made. -/
def schedLoopCalls (maxU : ℕ) (delays : ℕ → ℤ) : ℕ → ℕ → List CfgCall
  | _, 0 => []
  | u, t + 1 =>
    if u < maxU then
      CfgCall.call (delays u) 100 0 :: schedLoopCalls maxU delays (u + 1) t
    else []

/-- `NetworkConfigThread.configureNetworkConditions` as the sequence
of configurator calls it makes: one baseline call
`configureStaticNetworkConditions()` with all defaults
(`delay=100, bw=100, loss=0`), then the bounded update loop.  The
source fixes `maxU` to `max_updates = 10`; it is a parameter here so
the bound can be stated for every `N`. -/
def configureNetworkConditions (maxU : ℕ) (delays : ℕ → ℤ) (ticks : ℕ) : List CfgCall :=
  CfgCall.call 100 100 0 :: schedLoopCalls maxU delays 0 ticks

/-- One interface of the host, reduced to what
`configureStaticNetworkConditions` inspects: `str(intf)` (its name)
and `intf.link`, the latter carrying the identifiers of
`link.intf1` and `link.intf2` when the interface is attached to a
link. -/
structure Intf where
  name : String
  link : Option (String × String)
deriving DecidableEq

/-- The keyword arguments of one Mininet `intf.config(...)` call made
by the configurator: the target interface identifier and, for each of
the three traffic parameters, the value passed, `none` meaning the
keyword was not passed at all (so that parameter of the link is left
unchanged). -/
structure ConfigAction where
  target : String
  delay : Option String
  loss : Option ℤ
  bw : Option ℤ
deriving DecidableEq

/-- The f-string `f"{delay}ms"`. -/
def delayStr (d : ℤ) : String := toString d ++ "ms"

/-- Whether a `config` call passes a bandwidth keyword. -/
def setsBw (c : ConfigAction) : Bool := c.bw.isSome

/-- `NetworkConfigThread.configureStaticNetworkConditions(delay, bw,
loss)` over the host interface list: for every interface with
`intf.link` present and `str(intf) == self.dev`, both endpoints of the
link receive `config(delay=f"{delay}ms", loss=loss)`.  The body passes
no `bw` keyword to `config`, and it contains no raising path: an
identifier that matches nothing simply produces no action. -/
def configureStaticNetworkConditions (intfs : List Intf) (dev : String)
    (delay bw loss : ℤ) : List ConfigAction :=
  match intfs with
  | [] => []
  | i :: rest =>
    (match i.link with
     | some (a, b) =>
       if i.name = dev then
         [⟨a, some (delayStr delay), some loss, none⟩,
          ⟨b, some (delayStr delay), some loss, none⟩]
       else []
     | none => []) ++ configureStaticNetworkConditions rest dev delay bw loss

/-- Interpretation of one configurator call against the host state,
yielding the `config` actions it performs. -/
def runCall (intfs : List Intf) (dev : String) : CfgCall → List ConfigAction
  | CfgCall.call d b l => configureStaticNetworkConditions intfs dev d b l

/-- Interpretation of a whole sequence of configurator calls. -/
def runCalls (intfs : List Intf) (dev : String) : List CfgCall → List ConfigAction
  | [] => []
  | c :: cs => runCall intfs dev c ++ runCalls intfs dev cs

/-- The shared state of the trigger and the scheduler loop: the
`threading.Event` flag `update_event` (a single boolean, not a
counter), the `updates` counter of the loop, and the number of dynamic
configurator calls made so far. -/
structure LoopState where
  tick : Bool
  updatesApplied : ℕ
  dynCalls : ℕ
deriving DecidableEq

/-- `update_event.set()`: a trigger firing.  Setting an already set
event leaves it set; there is no queue and no counter. -/
def update_event_set (s : LoopState) : LoopState :=
  { s with tick := true }

/-- The body of one iteration of the update loop after
`update_event.wait()` has returned (which requires `tick = true`):
`get_closest_latency` is consulted, one dynamic configurator call is
made, `update_event.clear()` resets the flag, and `updates += 1`. -/
def applyUpdateStep (s : LoopState) : LoopState :=
  { tick := false, updatesApplied := s.updatesApplied + 1, dynCalls := s.dynCalls + 1 }

/-- One line of the ping text file consumed by
`convert_to_csv` in `convert_ping_text_to_csv.py`, abstracted by the
outcome of its parse: whitespace-only (`continue`d over), a line whose
split or conversion raises (caught and skipped with a message), or a
valid timestamp/rtt sample. -/
inductive PLine
  | blank
  | bad
  | sample (ts rtt : ℚ)
deriving DecidableEq

/-- The `for line in lines[1:]` collection loop of `convert_to_csv`:
blank lines and lines that fail to parse are skipped and processing
continues; valid samples are collected in order. -/
def convertKeep : List PLine → List (ℚ × ℚ)
  | [] => []
  | PLine.blank :: ls => convertKeep ls
  | PLine.bad :: ls => convertKeep ls
  | PLine.sample t r :: ls => (t, r) :: convertKeep ls

/-- `convert_to_csv` up to its collection phase: the first line is a
header and is skipped, the remaining lines are parsed with
skip-and-continue recovery. -/
def convert_to_csv (lines : List PLine) : List (ℚ × ℚ) :=
  convertKeep lines.tail

/-- The left fold implementing Python `min(keys, key=lambda t: abs(t - e))`
returns an element of the scanned sequence whose distance to `e` is
minimal among all scanned elements. -/
theorem pyAbsMin_spec (e : ℚ) (ks : List ℚ) : ∀ k : ℚ,
    pyAbsMin e k ks ∈ k :: ks ∧ ∀ x ∈ k :: ks, |pyAbsMin e k ks - e| ≤ |x - e| := by
  induction ks with
  | nil =>
    intro k
    simp [pyAbsMin]
  | cons a t ih =>
    intro k
    have hstep : pyAbsMin e k (a :: t) =
        pyAbsMin e (if |a - e| < |k - e| then a else k) t := rfl
    obtain ⟨ihm, ihmin⟩ := ih (if |a - e| < |k - e| then a else k)
    by_cases hc : |a - e| < |k - e|
    · rw [if_pos hc] at ihm ihmin
      rw [hstep, if_pos hc]
      refine ⟨List.mem_cons_of_mem k ihm, ?_⟩
      intro x hx
      rcases List.mem_cons.mp hx with hk | hx2
      · subst hk
        exact le_of_lt (lt_of_le_of_lt (ihmin a (List.mem_cons_self a t)) hc)
      · exact ihmin x hx2
    · rw [if_neg hc] at ihm ihmin
      rw [hstep, if_neg hc]
      constructor
      · rcases List.mem_cons.mp ihm with hk | ht
        · rw [hk]
          exact List.mem_cons_self _ _
        · exact List.mem_cons_of_mem k (List.mem_cons_of_mem a ht)
      · intro x hx
        rcases List.mem_cons.mp hx with hk | hx2
        · rw [hk]
          exact ihmin k (List.mem_cons_self k t)
        · rcases List.mem_cons.mp hx2 with ha | ht
          · rw [ha]
            exact le_trans (ihmin k (List.mem_cons_self k t)) (not_lt.mp hc)
          · exact ihmin x (List.mem_cons_of_mem k ht)

/-- C1: for every non-empty trace the Nearest-Sample Selector returns
`int(trace[k] / 2)` for a key `k` of the trace whose absolute distance
to the elapsed time is minimal over all keys, and on the trace
`{0.0: 100.0, 1.0: 300.0, 2.0: 50.0}` at elapsed time `0.9` it
returns `150` (nearest key `1.0`, `int(300 / 2)`). -/
theorem closest_latency_nearest_sample :
    (∀ (trace : List (ℚ × ℚ)) (e : ℚ), trace ≠ [] →
      ∃ k ∈ trace.map Prod.fst,
        (∀ x ∈ trace.map Prod.fst, |k - e| ≤ |x - e|) ∧
          get_closest_latency trace e = some (pyTrunc (dictLookup trace k / 2))) ∧
    get_closest_latency [(0, 100), (1, 300), (2, 50)] (9/10) = some 150 := by
  constructor
  · intro trace e htr
    rcases hmap : trace.map Prod.fst with _ | ⟨k, ks⟩
    · exact absurd (List.map_eq_nil_iff.mp hmap) htr
    · obtain ⟨hm, hmin⟩ := pyAbsMin_spec e ks k
      refine ⟨pyAbsMin e k ks, ?_, ?_, ?_⟩
      · exact hm
      · intro x hx
        exact hmin x hx
      · simp [get_closest_latency, hmap]
  · norm_num [get_closest_latency, pyAbsMin, dictLookup, pyTrunc, Rat.floor,
      abs, max_def, List.foldl]

/-- Witness for the C1 theorem, instantiated at the trace and elapsed
time of Scenario A. -/
theorem closest_latency_nearest_sample_witness :
    ∃ k ∈ ([(0, 100), (1, 300), (2, 50)] : List (ℚ × ℚ)).map Prod.fst,
      (∀ x ∈ ([(0, 100), (1, 300), (2, 50)] : List (ℚ × ℚ)).map Prod.fst,
        |k - 9/10| ≤ |x - 9/10|) ∧
        get_closest_latency [(0, 100), (1, 300), (2, 50)] (9/10) =
          some (pyTrunc (dictLookup [(0, 100), (1, 300), (2, 50)] k / 2)) :=
  closest_latency_nearest_sample.1 [(0, 100), (1, 300), (2, 50)] (9/10) (by decide)

/-- C3 counterexample: at `start_time = 0`, `step = 1`, `now = 2` the
invocation has `sleepFor = -1 ≤ 0`, and the claim predicts an
immediate tick signal; the code only re-enters the scheduler relative
to the current time and performs no `update_event.set()` at all, so no
tick is signalled by this invocation. -/
theorem behind_branch_no_tick_counterexample :
    update_periodically 0 1 2 = [TrigAction.enter 0 2 1] ∧
      TrigAction.setTick ∉ update_periodically 0 1 2 := by
  have h : update_periodically 0 1 2 = [TrigAction.enter 0 2 1] := by
    norm_num [update_periodically]
  refine ⟨h, ?_⟩
  rw [h]
  decide

/-- C3 (amended): in every invocation of the trigger step where
`sleepFor = start_time + step - now ≤ 0` (the loop fell behind), the
trigger reschedules its next invocation immediately (delay `0`) and
relative to the current time rather than the missed target, but it
does not signal a tick in that invocation; the tick is only produced
by the subsequent on-time invocation. -/
theorem behind_branch_reschedules_from_now (start_time step now : ℚ)
    (h : start_time + step - now ≤ 0) :
    update_periodically start_time step now = [TrigAction.enter 0 now step] := by
  simp only [update_periodically]
  rw [if_neg (not_lt.mpr h)]

/-- Witness for the amended C3 theorem at a concrete fallen-behind
input. -/
theorem behind_branch_reschedules_from_now_witness :
    update_periodically 0 latency_update_interval 2 =
      [TrigAction.enter 0 2 latency_update_interval] :=
  behind_branch_reschedules_from_now 0 latency_update_interval 2 (by norm_num [latency_update_interval])

/-- C4 counterexample: at `start_time = 0`, `step = 1`, `now = 1/2` the
invocation has `sleepFor = 1/2 > 0`, and the claim predicts that the
trigger first sleeps for that duration and only then signals the tick;
in the code the very first action of the invocation is
`update_event.set()`, and the invocation performs no sleeping action at
all (the delay is handed to `scheduler.enter` and elapses only after
the invocation has returned). -/
theorem ontime_branch_order_counterexample :
    (update_periodically 0 1 (1/2)).head? = some TrigAction.setTick ∧
      (update_periodically 0 1 (1/2)).filter isSleep = [] := by
  have h : update_periodically 0 1 (1/2) =
      [TrigAction.setTick, TrigAction.enter (1/2) 1 1] := by
    norm_num [update_periodically]
  rw [h]
  exact ⟨rfl, rfl⟩

/-- C4 (amended): in every invocation where `sleepFor > 0` the trigger
signals a tick immediately, then schedules the following invocation to
run after `sleepFor` seconds (i.e. exactly at the target
`next = start_time + step`) passing that target as the new base, so
the following iteration computes `next + step`; consequently, when
invocations stay on time, the `k`-th invocation fires its tick at
`t + k * step` and schedules the next one at `t + (k + 1) * step` —
the firing targets form the arithmetic sequence with no cumulative
drift. -/
theorem ontime_branch_tick_then_schedule :
    (∀ start_time step now : ℚ, 0 < start_time + step - now →
      update_periodically start_time step now =
        [TrigAction.setTick,
         TrigAction.enter (start_time + step - now) (start_time + step) step]) ∧
    (∀ t step : ℚ, 0 < step → ∀ k : ℕ,
      update_periodically (t + (k : ℚ) * step) step (t + (k : ℚ) * step) =
        [TrigAction.setTick,
         TrigAction.enter step (t + ((k : ℚ) + 1) * step) step]) := by
  constructor
  · intro s st n h
    simp only [update_periodically]
    rw [if_pos h]
  · intro t st h k
    have hpos : (0 : ℚ) < t + (k : ℚ) * st + st - (t + (k : ℚ) * st) := by linarith
    have e1 : t + (k : ℚ) * st + st - (t + (k : ℚ) * st) = st := by ring
    have e2 : t + (k : ℚ) * st + st = t + ((k : ℚ) + 1) * st := by ring
    simp only [update_periodically]
    rw [if_pos hpos, e1, e2]

/-- Witness for the amended C4 theorem at a concrete on-time input. -/
theorem ontime_branch_tick_then_schedule_witness :
    update_periodically 0 latency_update_interval (1/2) =
      [TrigAction.setTick,
       TrigAction.enter (0 + latency_update_interval - 1/2)
         (0 + latency_update_interval) latency_update_interval] :=
  ontime_branch_tick_then_schedule.1 0 latency_update_interval (1/2)
    (by norm_num [latency_update_interval])

/-- As long as at least `maxU - u` more ticks can be consumed, the
update loop starting from counter value `u` makes exactly one dynamic
configurator call per consumed tick until the counter reaches `maxU`,
and then stops; the trace does not depend on how many further ticks
are available. -/
theorem schedLoopCalls_eq (maxU : ℕ) (delays : ℕ → ℤ) :
    ∀ (t u : ℕ), maxU - u ≤ t →
      schedLoopCalls maxU delays u t =
        (List.range (maxU - u)).map (fun j => CfgCall.call (delays (u + j)) 100 0) := by
  intro t
  induction t with
  | zero =>
    intro u h
    rw [Nat.le_zero.mp h]
    simp [schedLoopCalls]
  | succ t ih =>
    intro u h
    by_cases hu : u < maxU
    · have h1 : maxU - (u + 1) ≤ t := by omega
      have h2 : maxU - u = (maxU - (u + 1)) + 1 := by omega
      have hf : (fun j => CfgCall.call (delays (u + 1 + j)) 100 0) =
          (fun j => CfgCall.call (delays (u + (j + 1))) 100 0) := by
        funext j
        have hj : u + 1 + j = u + (j + 1) := by omega
        rw [hj]
      simp only [schedLoopCalls, if_pos hu, ih (u + 1) h1, h2,
        List.range_succ_eq_map, List.map_cons, List.map_map, Function.comp_def,
        Nat.add_zero, hf]
    · have h0 : maxU - u = 0 := by omega
      simp [schedLoopCalls, if_neg hu, h0]

/-- C2: with `maxUpdates = maxU` and any supply of at least `maxU`
ticks, the scheduler loop makes exactly one baseline configurator call
(all defaults: delay `100`, bw `100`, loss `0`), then exactly `maxU`
dynamic calls, one per consumed tick with the latency selected at that
tick, and the trace ends there — it is independent of how many further
ticks are signalled.  The source instantiates `maxU` with
`max_updates = 10`. -/
theorem scheduler_bounded_termination (maxU ticks : ℕ) (delays : ℕ → ℤ)
    (h : maxU ≤ ticks) :
    configureNetworkConditions maxU delays ticks =
      CfgCall.call 100 100 0 ::
        (List.range maxU).map (fun j => CfgCall.call (delays j) 100 0) := by
  have := schedLoopCalls_eq maxU delays ticks 0 (by omega)
  simpa [configureNetworkConditions] using this

/-- Witness for the C2 theorem: the default bound `max_updates = 10`
with `15` available ticks (Scenario C) yields the baseline call
followed by exactly ten dynamic calls. -/
theorem scheduler_bounded_termination_witness :
    configureNetworkConditions max_updates (fun j => (j : ℤ)) 15 =
      CfgCall.call 100 100 0 ::
        (List.range max_updates).map (fun j => CfgCall.call ((j : ℤ)) 100 0) :=
  scheduler_bounded_termination max_updates 15 (fun j => (j : ℤ)) (by decide)

/-- C5: the tick flag is a single boolean, so a second
`update_event.set()` arriving before the loop has cleared the first is
absorbed: the state after two firings equals the state after one, the
wait is enabled, consuming it performs exactly one update step (one
dynamic configurator call, one `updates` increment), and afterwards the
flag is clear again, so no second `APPLYING_UPDATE` can happen without
a fresh firing. -/
theorem tick_coalescing (s : LoopState) :
    update_event_set (update_event_set s) = update_event_set s ∧
    (update_event_set (update_event_set s)).tick = true ∧
    applyUpdateStep (update_event_set (update_event_set s)) =
      applyUpdateStep (update_event_set s) ∧
    (applyUpdateStep (update_event_set (update_event_set s))).updatesApplied =
      s.updatesApplied + 1 ∧
    (applyUpdateStep (update_event_set (update_event_set s))).dynCalls =
      s.dynCalls + 1 ∧
    (applyUpdateStep (update_event_set (update_event_set s))).tick = false := by
  simp [update_event_set, applyUpdateStep]

/-- C7 counterexample: a trace file consisting of a single (header)
line and no data rows loads successfully, yielding the empty trace —
the load reports no error, contradicting the claim that a trace with
no data rows is rejected fatally at load time. -/
theorem empty_trace_load_counterexample :
    load_latency_trace [[Cell.bad]] = some [] := rfl

/-- C7 (amended): loading a trace file that contains only its header
line succeeds silently and yields an empty trace (the emptiness is not
detected at load time); the failure only surfaces later, when the
Nearest-Sample Selector is invoked on the empty trace and `min` over
the empty key sequence raises. -/
theorem empty_trace_silent_load (hdr : List Cell) (e : ℚ) :
    load_latency_trace [hdr] = some [] ∧ get_closest_latency [] e = none :=
  ⟨rfl, rfl⟩

/-- A row that fails to parse aborts the `for row in reader` loop of
the loader with an uncaught exception wherever it occurs, whatever the
dictionary accumulated so far. -/
theorem loadRows_fail (row : List Cell) (hrow : parseRow row = none) :
    ∀ (pre post : List (List Cell)) (d : List (ℚ × ℚ)),
      loadRows (pre ++ row :: post) d = none := by
  intro pre
  induction pre with
  | nil =>
    intro post d
    simp [loadRows, hrow]
  | cons r rs ih =>
    intro post d
    rcases hr : parseRow r with _ | ⟨t, v⟩
    · simp [loadRows, hr]
    · simp [loadRows, hr, ih]

/-- The collection loop of `convert_to_csv` drops a malformed line and
keeps processing, so the collected samples are those of the remaining
lines. -/
theorem convertKeep_skip :
    ∀ (pre post : List PLine),
      convertKeep (pre ++ PLine.bad :: post) = convertKeep (pre ++ post) := by
  intro pre
  induction pre with
  | nil =>
    intro post
    rfl
  | cons l ls ih =>
    intro post
    cases l <;> simp [convertKeep, ih]

/-- C6: `load_latency_trace` discards the first line of the file
unconditionally — the loaded trace does not depend on that line at
all, even when it is styled as data; every subsequent row on which
`float(row[1])` or `float(row[2])` fails makes the whole load fail
fatally rather than being skipped; and the sibling conversion utility
`convert_to_csv` instead skips a malformed line and keeps the
samples of all remaining lines. -/
theorem trace_load_strictness :
    (∀ (h1 h2 : List Cell) (rows : List (List Cell)),
      load_latency_trace (h1 :: rows) = load_latency_trace (h2 :: rows)) ∧
    (∀ (hdr : List Cell) (pre : List (List Cell)) (row : List Cell)
        (post : List (List Cell)), parseRow row = none →
      load_latency_trace (hdr :: (pre ++ row :: post)) = none) ∧
    (∀ (hdr : PLine) (pre post : List PLine),
      convert_to_csv (hdr :: (pre ++ PLine.bad :: post)) =
        convert_to_csv (hdr :: (pre ++ post))) := by
  refine ⟨fun h1 h2 rows => rfl, ?_, ?_⟩
  · intro hdr pre row post hrow
    exact loadRows_fail row hrow pre post []
  · intro hdr pre post
    exact convertKeep_skip pre post

/-- Witness for the C6 theorem: a file whose second data row has a
non-numeric second field fails to load as a whole, even though its
first data row is well formed. -/
theorem trace_load_strictness_witness :
    load_latency_trace
      [[Cell.bad],
       [Cell.num 0, Cell.num 0, Cell.num 100],
       [Cell.num 0, Cell.bad, Cell.num 300]] = none :=
  trace_load_strictness.2.1 [Cell.bad] [[Cell.num 0, Cell.num 0, Cell.num 100]]
    [Cell.num 0, Cell.bad, Cell.num 300] [] rfl

/-- No `config` call emitted by `configureStaticNetworkConditions`
ever passes a bandwidth keyword, whatever the host interfaces and
arguments. -/
theorem configureStatic_no_bw (dev : String) (delay bw loss : ℤ) :
    ∀ intfs : List Intf,
      (configureStaticNetworkConditions intfs dev delay bw loss).filter setsBw = [] := by
  intro intfs
  induction intfs with
  | nil => rfl
  | cons i rest ih =>
    rcases hl : i.link with _ | ⟨a, b⟩
    · simpa [configureStaticNetworkConditions, hl] using ih
    · by_cases hn : i.name = dev
      · simp [configureStaticNetworkConditions, hl, hn, setsBw, ih]
      · simpa [configureStaticNetworkConditions, hl, hn] using ih

/-- When no interface of the host both carries a link and has the
configured device name, `configureStaticNetworkConditions` emits no
`config` call at all (and, being a total function with no failure
value, it surfaces no error). -/
theorem configureStatic_unresolved (dev : String) (delay bw loss : ℤ) :
    ∀ intfs : List Intf, (∀ i ∈ intfs, i.link.isSome = true → i.name ≠ dev) →
      configureStaticNetworkConditions intfs dev delay bw loss = [] := by
  intro intfs
  induction intfs with
  | nil =>
    intro _
    rfl
  | cons i rest ih =>
    intro h
    have hrest := ih (fun j hj => h j (List.mem_cons_of_mem i hj))
    rcases hl : i.link with _ | ⟨a, b⟩
    · simpa [configureStaticNetworkConditions, hl] using hrest
    · have hn : i.name ≠ dev := by
        have := h i (List.mem_cons_self i rest)
        rw [hl] at this
        exact this rfl
      simpa [configureStaticNetworkConditions, hl, hn] using hrest

/-- C8 counterexample: on a host where the device name resolves (the
single interface is named `router-eth1` and carries a link), a call
with `delay = 5`, `bw = 42`, `loss = 1` does emit two `config` calls
(the link is configured), yet neither of them passes any bandwidth
keyword — the given `bw = 42` is never applied, contradicting the
claim that the configurator sets the link bandwidth to the given
value. -/
theorem bandwidth_not_applied_counterexample :
    (configureStaticNetworkConditions
        [⟨"router-eth1", some ("router-eth1", "pop-eth0")⟩]
        "router-eth1" 5 42 1).length = 2 ∧
    (configureStaticNetworkConditions
        [⟨"router-eth1", some ("router-eth1", "pop-eth0")⟩]
        "router-eth1" 5 42 1).filter setsBw = [] := by
  constructor
  · simp [configureStaticNetworkConditions]
  · exact configureStatic_no_bw "router-eth1" 5 42 1 _

/-- C8 (amended): for every call on a host interface that resolves the
device name, the configurator issues `config` calls that set the same
propagation delay string `f"{delay}ms"` on both endpoints of the link
and set the loss to the given value on both; the `bw` argument is
accepted but never passed on, so the link bandwidth is left
unchanged. -/
theorem apply_sets_delay_and_loss_only (intfs : List Intf) (dev : String)
    (delay bw loss : ℤ) (i : Intf) (a b : String)
    (hi : i ∈ intfs) (hl : i.link = some (a, b)) (hn : i.name = dev) :
    (⟨a, some (delayStr delay), some loss, none⟩ : ConfigAction) ∈
        configureStaticNetworkConditions intfs dev delay bw loss ∧
    (⟨b, some (delayStr delay), some loss, none⟩ : ConfigAction) ∈
        configureStaticNetworkConditions intfs dev delay bw loss ∧
    (configureStaticNetworkConditions intfs dev delay bw loss).filter setsBw = [] := by
  refine ⟨?_, ?_, configureStatic_no_bw dev delay bw loss intfs⟩ <;>
  · induction intfs with
    | nil => cases hi
    | cons j rest ih =>
      rcases List.mem_cons.mp hi with hj | hj
      · rw [← hj] at *
        simp [configureStaticNetworkConditions, hl, hn]
      · rcases hjl : j.link with _ | ⟨c, d⟩
        · simpa [configureStaticNetworkConditions, hjl] using ih hj
        · by_cases hjn : j.name = dev
          · simp only [configureStaticNetworkConditions, hjl, if_pos hjn]
            exact List.mem_append_right _ (ih hj)
          · simpa [configureStaticNetworkConditions, hjl, hjn] using ih hj

/-- Witness for the amended C8 theorem on the concrete resolvable
host. -/
theorem apply_sets_delay_and_loss_only_witness :
    (⟨"router-eth1", some (delayStr 5), some 1, none⟩ : ConfigAction) ∈
        configureStaticNetworkConditions
          [⟨"router-eth1", some ("router-eth1", "pop-eth0")⟩] "router-eth1" 5 42 1 ∧
    (⟨"pop-eth0", some (delayStr 5), some 1, none⟩ : ConfigAction) ∈
        configureStaticNetworkConditions
          [⟨"router-eth1", some ("router-eth1", "pop-eth0")⟩] "router-eth1" 5 42 1 ∧
    (configureStaticNetworkConditions
        [⟨"router-eth1", some ("router-eth1", "pop-eth0")⟩]
        "router-eth1" 5 42 1).filter setsBw = [] :=
  apply_sets_delay_and_loss_only
    [⟨"router-eth1", some ("router-eth1", "pop-eth0")⟩] "router-eth1" 5 42 1
    ⟨"router-eth1", some ("router-eth1", "pop-eth0")⟩ "router-eth1" "pop-eth0"
    (List.mem_cons_self _ _) rfl rfl

/-- C9: when the configured device name matches no linked interface of
the host, the configurator call does nothing observable: it emits no
`config` call, and since the embedded function is total with no
failure value (the source body has no raising path), no error is
surfaced and the link state is unchanged. -/
theorem unresolved_dev_noop (intfs : List Intf) (dev : String) (delay bw loss : ℤ)
    (h : ∀ i ∈ intfs, i.link.isSome = true → i.name ≠ dev) :
    configureStaticNetworkConditions intfs dev delay bw loss = [] :=
  configureStatic_unresolved dev delay bw loss intfs h

/-- Witness for the C9 theorem: a host with one linked interface of a
different name and one unlinked interface, against a device name that
matches nothing. -/
theorem unresolved_dev_noop_witness :
    configureStaticNetworkConditions
      [⟨"router-eth0", some ("user-eth0", "router-eth0")⟩, ⟨"lo", none⟩]
      "router-eth9" 7 100 0 = [] :=
  unresolved_dev_noop _ _ 7 100 0 (by decide)

/-- Interpreting a sequence of configurator calls on a host where the
device name resolves to nothing produces no `config` call at all. -/
theorem runCalls_unresolved (intfs : List Intf) (dev : String)
    (h : ∀ i ∈ intfs, i.link.isSome = true → i.name ≠ dev) :
    ∀ cs : List CfgCall, runCalls intfs dev cs = [] := by
  intro cs
  induction cs with
  | nil => rfl
  | cons c rest ih =>
    rcases c with ⟨d, b, l⟩
    simp [runCalls, runCall, ih, configureStatic_unresolved dev d b l intfs h]

/-- C10: the update loop counts a dynamic update and consumes its tick
whether or not the configurator call had any effect: on a host where
the device name resolves to nothing, a run with at least `maxU` ticks
still performs the baseline call plus exactly `maxU` dynamic calls
(reaching the terminal state), while the interpretation of the whole
call trace against the host performs zero `config` actions — the loop
reaches `TERMINAL` with no actual link change. -/
theorem terminal_without_link_changes (intfs : List Intf) (dev : String)
    (delays : ℕ → ℤ) (maxU ticks : ℕ)
    (hres : ∀ i ∈ intfs, i.link.isSome = true → i.name ≠ dev)
    (ht : maxU ≤ ticks) :
    (configureNetworkConditions maxU delays ticks).length = maxU + 1 ∧
    runCalls intfs dev (configureNetworkConditions maxU delays ticks) = [] := by
  constructor
  · have := schedLoopCalls_eq maxU delays ticks 0 (by omega)
    simp [configureNetworkConditions, this]
  · exact runCalls_unresolved intfs dev hres _

/-- Witness for the C10 theorem: ten counted updates, zero emitted
`config` actions, on a host whose single linked interface does not
match the configured device name. -/
theorem terminal_without_link_changes_witness :
    (configureNetworkConditions max_updates (fun j => (2 : ℤ) * j) 15).length =
      max_updates + 1 ∧
    runCalls [⟨"router-eth0", some ("user-eth0", "router-eth0")⟩] "router-eth1"
      (configureNetworkConditions max_updates (fun j => (2 : ℤ) * j) 15) = [] :=
  terminal_without_link_changes
    [⟨"router-eth0", some ("user-eth0", "router-eth0")⟩] "router-eth1"
    (fun j => (2 : ℤ) * j) max_updates 15 (by decide) (by decide)

end BentPipe
